import Mathlib

/-!
# LearnGo/main01.go

A shallow embedding of the Go program `src/LearnGo/main01.go`: the statements of
`func main` as a small abstract syntax (declarations in the three forms the file
uses, and calls of `fmt.Println`), an interpreter that runs them against a process
with a standard output stream, and the properties of the run.
-/

namespace LearnGo

/-! ## Values and syntax -/

/-- Kinds of value that main01.go declares: `int`, `string`, and the floating-point
kind of the untyped constant `3.14159`. -/
inductive Kind
  | int
  | string
  | float
  deriving DecidableEq, Repr

/-- A decimal literal `mantissa * 10^(-scale)`; Go constants are exact, so
`3.14159` is kept as `314159 * 10^(-5)`. -/
structure Decimal where
  mantissa : Nat
  scale : Nat
  deriving DecidableEq, Repr

/-- Values of the program. Integers are mathematical integers: main performs no
arithmetic, so no operation can overflow. -/
inductive Value
  | int (n : Int)
  | str (s : String)
  | float (d : Decimal)
  deriving DecidableEq, Repr

/-- The kind of a value (the default type Go gives the literal). -/
def Value.kind : Value → Kind
  | .int _ => .int
  | .str _ => .string
  | .float _ => .float

/-- Expressions that occur in main: literals and identifiers. -/
inductive Expr
  | lit (v : Value)
  | ident (x : String)
  deriving DecidableEq, Repr

/-- The declaration forms of main01.go: `var x T = e`, `var x = e`, `x := e`,
`const x = e`. -/
inductive DeclForm
  | varTyped
  | varInferred
  | short
  | const
  deriving DecidableEq, Repr

/-- Statements that occur in main. -/
inductive Stmt
  | varDecl (x : String) (ty : Option Kind) (init : Expr)
  | shortDecl (x : String) (init : Expr)
  | constDecl (x : String) (init : Expr)
  | println (args : List Expr)
  deriving DecidableEq, Repr

/-- The body of `func main()` of main01.go, statement by statement (lines 9-30). -/
def main : List Stmt :=
  [ .varDecl "a" (some .int) (.lit (.int 10)),
    .varDecl "name" (some .string) (.lit (.str "Gopher")),
    .println [.lit (.str "Value of a:"), .ident "a", .lit (.str "Name:"), .ident "name"],
    .println [.lit (.str "Hello, Go!")],
    .varDecl "age" (some .int) (.lit (.int 25)),
    .varDecl "city" none (.lit (.str "New York")),
    .shortDecl "count" (.lit (.int 10)),
    .shortDecl "message" (.lit (.str "Hello")),
    .constDecl "Pi" (.lit (.float ⟨314159, 5⟩)),
    .constDecl "MaxUsers" (.lit (.int 100)),
    .println [.lit (.str "Value of age:"), .ident "age", .lit (.str "city:"), .ident "city"],
    .println [.lit (.str "Value of count:"), .ident "count", .lit (.str "count:"),
      .ident "count"],
    .println [.lit (.str "Value of message:"), .ident "message", .lit (.str "city:"),
      .ident "city"] ]

/-- The eight literal values that main01.go declares. -/
structure Literals where
  a : Int
  name : String
  age : Int
  city : String
  count : Int
  message : String
  Pi : Decimal
  MaxUsers : Int
  deriving DecidableEq, Repr

/-- The literals as written in main01.go. -/
def literals : Literals :=
  { a := 10, name := "Gopher", age := 25, city := "New York", count := 10,
    message := "Hello", Pi := ⟨314159, 5⟩, MaxUsers := 100 }

/-- The body of main with the eight declared literals abstracted: the same
statements, labels and identifiers, with `l` supplying the initialisers. -/
def mainWith (l : Literals) : List Stmt :=
  [ .varDecl "a" (some .int) (.lit (.int l.a)),
    .varDecl "name" (some .string) (.lit (.str l.name)),
    .println [.lit (.str "Value of a:"), .ident "a", .lit (.str "Name:"), .ident "name"],
    .println [.lit (.str "Hello, Go!")],
    .varDecl "age" (some .int) (.lit (.int l.age)),
    .varDecl "city" none (.lit (.str l.city)),
    .shortDecl "count" (.lit (.int l.count)),
    .shortDecl "message" (.lit (.str l.message)),
    .constDecl "Pi" (.lit (.float l.Pi)),
    .constDecl "MaxUsers" (.lit (.int l.MaxUsers)),
    .println [.lit (.str "Value of age:"), .ident "age", .lit (.str "city:"), .ident "city"],
    .println [.lit (.str "Value of count:"), .ident "count", .lit (.str "count:"),
      .ident "count"],
    .println [.lit (.str "Value of message:"), .ident "message", .lit (.str "city:"),
      .ident "city"] ]

/-! ## Execution -/

/-- Ways a statement of this fragment can fail. -/
inductive Err
  | undefined (x : String)
  | redeclared (x : String)
  | mismatchedTypes (x : String)
  | unsupportedOperand
  deriving DecidableEq, Repr

/-- The process a program runs in: what it could read (arguments, environment,
standard input) and the contents of its standard output stream. -/
structure Process where
  args : List String
  environ : List (String × String)
  stdin : String
  stdout : String
  deriving DecidableEq, Repr

/-- A declared name: the form it was declared with and its value. -/
structure Binding where
  form : DeclForm
  val : Value
  deriving DecidableEq, Repr

/-- What a statement does, recorded in execution order: a declaration with its
initial value, or a `fmt.Println` call with its operands, their values, and the
line written. -/
inductive Event
  | declared (form : DeclForm) (x : String) (v : Value)
  | printed (operands : List (Expr × Value)) (line : String)
  deriving DecidableEq, Repr

/-- State of a run: the process, the names in scope (oldest first), and the
record of executed statements. -/
structure Machine where
  proc : Process
  scope : List (String × Binding)
  trace : List Event
  deriving DecidableEq, Repr

/-- Evaluate an expression in a scope. -/
def eval (scope : List (String × Binding)) : Expr → Except Err Value
  | .lit v => .ok v
  | .ident x =>
    match scope.lookup x with
    | some b => .ok b.val
    | none => .error (.undefined x)

/-- Evaluate the operands of a call left to right, keeping each with its value. -/
def evalArgs (scope : List (String × Binding)) : List Expr → Except Err (List (Expr × Value))
  | [] => .ok []
  | e :: es =>
    match eval scope e with
    | .error err => .error err
    | .ok v =>
      match evalArgs scope es with
      | .error err => .error err
      | .ok vs => .ok ((e, v) :: vs)

/-- Modelled from the spec: the body of `fmt.Println` (Go standard library) is not
under src/. Decimal text of an integer, as `fmt` writes an `int` by default: the
digits of the magnitude, after a minus sign when it is negative. -/
def fmtInteger (n : Int) : String :=
  if n < 0 then "-" ++ String.mk (Nat.toDigits 10 n.natAbs)
  else String.mk (Nat.toDigits 10 n.natAbs)

/-- Modelled from the spec: the body of `fmt.Println` (Go standard library) is not
under src/. Default value-to-text formatting of one operand: a string is written
verbatim and an integer in decimal. Floating-point operands are outside the
fragment (main prints none). -/
def printArg : Value → Except Err String
  | .str s => .ok s
  | .int n => .ok (fmtInteger n)
  | .float _ => .error .unsupportedOperand

/-- Modelled from the spec: the body of `fmt.Println` (Go standard library) is not
under src/. The operand loop of `Println`: before every operand but the first a
space is written to the buffer, then the operand; after the last operand a
newline. -/
def doPrintln : Nat → List Value → String → Except Err String
  | _, [], buf => .ok (buf ++ "\n")
  | argNum, arg :: rest, buf =>
    match printArg arg with
    | .error err => .error err
    | .ok t => doPrintln (argNum + 1) rest ((if argNum > 0 then buf ++ " " else buf) ++ t)

/-- Modelled from the spec: the body of `fmt.Println` (Go standard library) is not
under src/. The line `fmt.Println` builds for its operands. -/
def sprintln (vs : List Value) : Except Err String :=
  doPrintln 0 vs ""

/-- Bring a name into scope; declaring a name twice in one scope is an error. -/
def declare (m : Machine) (form : DeclForm) (x : String) (v : Value) : Except Err Machine :=
  match m.scope.lookup x with
  | some _ => .error (.redeclared x)
  | none =>
    .ok { m with scope := m.scope ++ [(x, ⟨form, v⟩)],
                 trace := m.trace ++ [.declared form x v] }

/-- Execute one statement. `fmt.Println` appends its line to standard output with
one write; main discards the values `Println` returns. -/
def step (m : Machine) : Stmt → Except Err Machine
  | .varDecl x (some ty) init =>
    match eval m.scope init with
    | .error err => .error err
    | .ok v => if v.kind = ty then declare m .varTyped x v else .error (.mismatchedTypes x)
  | .varDecl x none init =>
    match eval m.scope init with
    | .error err => .error err
    | .ok v => declare m .varInferred x v
  | .shortDecl x init =>
    match eval m.scope init with
    | .error err => .error err
    | .ok v => declare m .short x v
  | .constDecl x init =>
    match eval m.scope init with
    | .error err => .error err
    | .ok v => declare m .const x v
  | .println args =>
    match evalArgs m.scope args with
    | .error err => .error err
    | .ok ops =>
      match sprintln (ops.map Prod.snd) with
      | .error err => .error err
      | .ok line =>
        .ok { m with proc := { m.proc with stdout := m.proc.stdout ++ line },
                     trace := m.trace ++ [.printed ops line] }

/-- Execute a statement list in order, stopping at the first error. -/
def exec : List Stmt → Machine → Except Err Machine
  | [], m => .ok m
  | s :: rest, m =>
    match step m s with
    | .error err => .error err
    | .ok m1 => exec rest m1

/-- The state in which a function body starts: nothing in scope, nothing executed. -/
def start (p : Process) : Machine :=
  { proc := p, scope := [], trace := [] }

/-- Run a program body in process `p`. -/
def run (prog : List Stmt) (p : Process) : Except Err Machine :=
  exec prog (start p)

/-- A process with no arguments, no environment, and empty streams. -/
def fresh : Process :=
  { args := [], environ := [], stdin := "", stdout := "" }

/-- Exit status of the process: 0 when main returns; an error path ends the
process with status 2, as a Go panic does. -/
def exitStatus : Except Err Machine → Nat
  | .ok _ => 0
  | .error _ => 2

/-! ## Observations on a run -/

/-- The lines written by the `fmt.Println` calls of a trace, in order. -/
def printedLines : List Event → List String
  | [] => []
  | .printed _ line :: rest => line :: printedLines rest
  | .declared _ _ _ :: rest => printedLines rest

/-- The declarations of a trace, in order: form, name, and kind of value. -/
def declarations : List Event → List (DeclForm × String × Kind)
  | [] => []
  | .declared form x v :: rest => (form, x, v.kind) :: declarations rest
  | .printed _ _ :: rest => declarations rest

/-- The identifier operands among the operands of a call, with their values. -/
def identOperands : List (Expr × Value) → List (String × Value)
  | [] => []
  | (.ident x, v) :: rest => (x, v) :: identOperands rest
  | (.lit _, _) :: rest => identOperands rest

/-- Every identifier printed by a trace, with the value printed for it. -/
def printedIdents : List Event → List (String × Value)
  | [] => []
  | .printed ops _ :: rest => identOperands ops ++ printedIdents rest
  | .declared _ _ _ :: rest => printedIdents rest

/-- The current value of a name, if it is in scope. -/
def valueOf (m : Machine) (x : String) : Option Value :=
  (m.scope.lookup x).map Binding.val

/-- The lines of a text: the pieces between newline characters, where a final
newline ends the last line instead of opening an empty one. -/
def linesOf (t : String) : List String :=
  let pieces := (t.toList.splitOn '\n').map String.mk
  if pieces.getLast? = some "" then pieces.dropLast else pieces

/-- The `fmt.Println` calls of a trace, in order: operands with their values, and
the line written. -/
def printCalls : List Event → List (List (Expr × Value) × String)
  | [] => []
  | .printed ops line :: rest => (ops, line) :: printCalls rest
  | .declared _ _ _ :: rest => printCalls rest

/-- The argument lists of the `fmt.Println` calls of a program, in order. -/
def printlnArgs : List Stmt → List (List Expr)
  | [] => []
  | .println args :: rest => args :: printlnArgs rest
  | .varDecl _ _ _ :: rest => printlnArgs rest
  | .shortDecl _ _ :: rest => printlnArgs rest
  | .constDecl _ _ :: rest => printlnArgs rest

/-- Whether two adjacent characters of a text are both spaces. -/
def hasDoubleSpace : List Char → Bool
  | [] => false
  | [_] => false
  | c :: d :: rest => (c == ' ' && d == ' ') || hasDoubleSpace (d :: rest)

/-- The texts of the operands, in order, under the default formatting. -/
def renderAll : List Value → Except Err (List String)
  | [] => .ok []
  | v :: vs =>
    match printArg v with
    | .error err => .error err
    | .ok t =>
      match renderAll vs with
      | .error err => .error err
      | .ok ts => .ok (t :: ts)

/-- The texts joined with `sep` between every pair of neighbours. -/
def joinWith (sep : String) : List String → String
  | [] => ""
  | [t] => t
  | t :: u :: rest => t ++ sep ++ joinWith sep (u :: rest)

/-- The line as the specification words it: the operands in order, each rendered
with the default formatting, joined by single spaces, and one newline appended. -/
def specLine (vs : List Value) : Except Err String :=
  (renderAll vs).map (fun ts => joinWith " " ts ++ "\n")

/-- The texts, each preceded by a space. -/
def spaced : List String → String
  | [] => ""
  | t :: ts => " " ++ t ++ spaced ts

/-- Whether every declaration of a trace comes before every `fmt.Println` call:
once a line has been printed, only prints follow. -/
def declsBeforePrints : List Event → Bool
  | [] => true
  | .declared _ _ _ :: rest => declsBeforePrints rest
  | .printed _ _ :: rest => (declarations rest).isEmpty

/-- The name an event declares; `none` for a `fmt.Println` call. -/
def Event.declares : Event → Option String
  | .declared _ x _ => some x
  | .printed _ _ => none

/-- Whether every identifier a `fmt.Println` call prints was declared by an earlier
event; `seen` holds the names declared so far. -/
def declaredBeforeUse (seen : List String) : List Event → Bool
  | [] => true
  | .declared _ x _ :: rest => declaredBeforeUse (seen ++ [x]) rest
  | .printed ops _ :: rest =>
    (identOperands ops).all (fun xv => seen.contains xv.1) && declaredBeforeUse seen rest

/-- The kinds of the values declared with a `var` form (typed or inferred), in order. -/
def varFormKinds : List (DeclForm × String × Kind) → List Kind
  | [] => []
  | (.varTyped, _, k) :: rest => k :: varFormKinds rest
  | (.varInferred, _, k) :: rest => k :: varFormKinds rest
  | (.short, _, _) :: rest => varFormKinds rest
  | (.const, _, _) :: rest => varFormKinds rest

/-- The identifiers an expression list reads. -/
def identsOf : List Expr → List String
  | [] => []
  | .ident x :: rest => x :: identsOf rest
  | .lit _ :: rest => identsOf rest

/-- The identifiers a program reads, in order of use. -/
def usedIdents : List Stmt → List String
  | [] => []
  | .varDecl _ _ init :: rest => identsOf [init] ++ usedIdents rest
  | .shortDecl _ init :: rest => identsOf [init] ++ usedIdents rest
  | .constDecl _ init :: rest => identsOf [init] ++ usedIdents rest
  | .println args :: rest => identsOf args ++ usedIdents rest

/-- The machine that results when a run in the fresh process is replayed in
process `p`: what was written is appended to the prior contents of `p.stdout`. -/
def relocate (p : Process) (m : Machine) : Machine :=
  { m with proc := { p with stdout := p.stdout ++ m.proc.stdout } }

/-- The final machine of a run in the fresh process (the start state if it fails). -/
def outcome (prog : List Stmt) : Machine :=
  match run prog fresh with
  | .ok m => m
  | .error _ => start fresh

/-- Whether a run in the fresh process ends without an error. -/
def succeeds (prog : List Stmt) : Bool :=
  match run prog fresh with
  | .ok _ => true
  | .error _ => false

/-! ## The process is a frame: a run never reads it -/

theorem declare_relocate (p : Process) (m : Machine) (form : DeclForm) (x : String)
    (v : Value) :
    declare (relocate p m) form x v = (declare m form x v).map (relocate p) := by
  unfold declare
  have hs : (relocate p m).scope = m.scope := rfl
  rw [hs]
  cases m.scope.lookup x <;> rfl

theorem step_relocate (p : Process) (m : Machine) (s : Stmt) :
    step (relocate p m) s = (step m s).map (relocate p) := by
  have hs : (relocate p m).scope = m.scope := rfl
  cases s with
  | varDecl x ty init =>
    cases ty with
    | none =>
      simp only [step, hs]
      cases eval m.scope init with
      | error e => rfl
      | ok v => exact declare_relocate p m _ x v
    | some ty =>
      simp only [step, hs]
      cases eval m.scope init with
      | error e => rfl
      | ok v =>
        by_cases hk : v.kind = ty
        · simp only [hk, if_true]
          exact declare_relocate p m _ x v
        · simp only [hk, if_false]
          rfl
  | shortDecl x init =>
    simp only [step, hs]
    cases eval m.scope init with
    | error e => rfl
    | ok v => exact declare_relocate p m _ x v
  | constDecl x init =>
    simp only [step, hs]
    cases eval m.scope init with
    | error e => rfl
    | ok v => exact declare_relocate p m _ x v
  | println args =>
    cases h1 : evalArgs m.scope args with
    | error e => simp only [step, hs, h1, Except.map]
    | ok ops =>
      cases h2 : sprintln (ops.map Prod.snd) with
      | error e => simp only [step, hs, h1, h2, Except.map]
      | ok line => simp only [step, hs, h1, h2, Except.map, relocate, String.append_assoc]

theorem exec_relocate (p : Process) (prog : List Stmt) :
    ∀ m : Machine, exec prog (relocate p m) = (exec prog m).map (relocate p) := by
  induction prog with
  | nil => intro m; rfl
  | cons s rest ih =>
    intro m
    simp only [exec, step_relocate]
    cases step m s with
    | error e => rfl
    | ok m1 => exact ih m1

theorem start_relocate (p : Process) : relocate p (start fresh) = start p := by
  cases p
  simp [relocate, start, fresh]

/-- A run in any process is the run in the fresh process, relocated. -/
theorem run_relocate (prog : List Stmt) (p : Process) :
    run prog p = (run prog fresh).map (relocate p) := by
  unfold run
  rw [← start_relocate p, exec_relocate]

/-- What a successful run in the fresh process says about the run in any process. -/
theorem run_of_fresh (prog : List Stmt) (p : Process) (h : succeeds prog = true) :
    ∃ m, run prog p = .ok m ∧ m.scope = (outcome prog).scope ∧
      m.trace = (outcome prog).trace ∧
      m.proc = { p with stdout := p.stdout ++ (outcome prog).proc.stdout } := by
  rw [run_relocate]
  unfold succeeds at h
  unfold outcome
  cases hr : run prog fresh with
  | error e => rw [hr] at h; cases h
  | ok m0 => exact ⟨relocate p m0, rfl, rfl, rfl, rfl⟩

/-! ## The run of main -/

/-- C1: running main appends to standard output exactly the text
"Value of a: 10 Name: Gopher", "Hello, Go!", "Value of age: 25 city: New York",
"Value of count: 10 count: 10", "Value of message: Hello city: New York", each
followed by a newline, in this order and nothing else: in any process the stream
afterwards is its prior contents followed by that text, the five Println calls
wrote these five lines in this order, and from an empty stream the stream is
exactly that text. -/
theorem main_writes_exact_text :
    (∀ p : Process, ∃ m, run main p = .ok m ∧
      m.proc.stdout = p.stdout ++
        "Value of a: 10 Name: Gopher\nHello, Go!\nValue of age: 25 city: New York\nValue of count: 10 count: 10\nValue of message: Hello city: New York\n" ∧
      printedLines m.trace =
        ["Value of a: 10 Name: Gopher\n", "Hello, Go!\n",
         "Value of age: 25 city: New York\n", "Value of count: 10 count: 10\n",
         "Value of message: Hello city: New York\n"]) ∧
    (∃ m, run main fresh = .ok m ∧
      m.proc.stdout =
        "Value of a: 10 Name: Gopher\nHello, Go!\nValue of age: 25 city: New York\nValue of count: 10 count: 10\nValue of message: Hello city: New York\n") := by
  refine ⟨fun p => ?_, ⟨outcome main, rfl, rfl⟩⟩
  obtain ⟨m, hm, _, ht, hp⟩ := run_of_fresh main p rfl
  refine ⟨m, hm, ?_, ?_⟩
  · rw [hp]; rfl
  · rw [ht]; rfl

/-- C2: the text main writes consists of exactly five lines: it contains exactly
five newline characters, it ends with a newline, it splits into five lines, and
none of them is empty; the five lines come from five Println calls. -/
theorem main_output_has_five_lines (p : Process) :
    ∃ m t, run main p = .ok m ∧ m.proc.stdout = p.stdout ++ t ∧
      t.toList.count '\n' = 5 ∧
      t.toList.getLast? = some '\n' ∧
      (linesOf t).length = 5 ∧
      (∀ l ∈ linesOf t, l ≠ "") ∧
      (printedLines m.trace).length = 5 := by
  obtain ⟨m, hm, _, ht, hp⟩ := run_of_fresh main p rfl
  refine ⟨m, (outcome main).proc.stdout, hm, ?_, ?_, ?_, ?_, ?_, ?_⟩
  · rw [hp]
  · decide
  · decide
  · decide
  · decide
  · rw [ht]; rfl

/-- C3: main is deterministic and reads no input: for any two processes (any
arguments, environment, standard input, and prior contents of standard output)
both runs succeed and append the same text to standard output, execute the same
statements with the same values, and leave the inputs as they were. -/
theorem main_deterministic (p q : Process) :
    ∃ t mp mq, run main p = .ok mp ∧ run main q = .ok mq ∧
      mp.proc.stdout = p.stdout ++ t ∧ mq.proc.stdout = q.stdout ++ t ∧
      mp.trace = mq.trace ∧ mp.scope = mq.scope ∧
      mp.proc.args = p.args ∧ mp.proc.environ = p.environ ∧ mp.proc.stdin = p.stdin ∧
      mq.proc.args = q.args ∧ mq.proc.environ = q.environ ∧ mq.proc.stdin = q.stdin := by
  obtain ⟨mp, hmp, hsp, htp, hpp⟩ := run_of_fresh main p rfl
  obtain ⟨mq, hmq, hsq, htq, hpq⟩ := run_of_fresh main q rfl
  refine ⟨(outcome main).proc.stdout, mp, mq, hmp, hmq, ?_, ?_, ?_, ?_, ?_, ?_, ?_, ?_, ?_, ?_⟩
  · rw [hpp]
  · rw [hpq]
  · rw [htp, htq]
  · rw [hsp, hsq]
  all_goals first | rw [hpp] | rw [hpq]

/-- C4: main terminates normally with a success status: in any process the run
ends without an error, the exit status is 0, every one of the thirteen statements
of main was executed exactly once, and the last thing executed is the fifth
Println call. -/
theorem main_terminates_normally (p : Process) :
    ∃ m, run main p = .ok m ∧ exitStatus (run main p) = 0 ∧
      m.trace.length = main.length ∧
      (printedLines m.trace).length = 5 ∧
      m.trace.getLast? = some (.printed
        [(.lit (.str "Value of message:"), .str "Value of message:"),
         (.ident "message", .str "Hello"),
         (.lit (.str "city:"), .str "city:"),
         (.ident "city", .str "New York")]
        "Value of message: Hello city: New York\n") := by
  obtain ⟨m, hm, _, ht, _⟩ := run_of_fresh main p rfl
  refine ⟨m, hm, ?_, ?_, ?_, ?_⟩
  · rw [hm]; rfl
  · rw [ht]; rfl
  · rw [ht]; rfl
  · rw [ht]; rfl

/-! ## The format of a line -/

theorem doPrintln_spaced (vs : List Value) :
    ∀ (n : Nat) (buf : String), 0 < n →
      doPrintln n vs buf = (renderAll vs).map (fun ts => buf ++ spaced ts ++ "\n") := by
  induction vs with
  | nil => intro n buf _; simp [doPrintln, renderAll, Except.map, spaced]
  | cons v vs ih =>
    intro n buf hn
    cases hv : printArg v with
    | error e => simp [doPrintln, renderAll, hv, Except.map]
    | ok t =>
      simp only [doPrintln, renderAll, hv, hn, if_true]
      rw [ih (n + 1) _ (Nat.succ_pos n)]
      cases renderAll vs with
      | error e => rfl
      | ok ts => simp [Except.map, spaced, String.append_assoc]

theorem joinWith_space_cons (t : String) (ts : List String) :
    joinWith " " (t :: ts) = t ++ spaced ts := by
  induction ts generalizing t with
  | nil => simp [joinWith, spaced]
  | cons u rest ih => simp [joinWith, spaced, ih u, String.append_assoc]

theorem sprintln_eq_specLine (vs : List Value) : sprintln vs = specLine vs := by
  cases vs with
  | nil => rfl
  | cons v vs =>
    cases hv : printArg v with
    | error e => simp [sprintln, specLine, doPrintln, renderAll, hv, Except.map]
    | ok t =>
      simp only [sprintln, specLine, doPrintln, renderAll, hv]
      rw [doPrintln_spaced vs 1 _ (by decide)]
      cases renderAll vs with
      | error e => rfl
      | ok ts => simp [Except.map, joinWith_space_cons, String.append_assoc]

theorem fmtInteger_eq_toString (n : Int) : fmtInteger n = toString n := by
  cases n with
  | ofNat k =>
    have h : ¬ (Int.ofNat k < 0) := by simp
    simp only [fmtInteger, h, if_false]
    rfl
  | negSucc k =>
    have h : Int.negSucc k < 0 := Int.negSucc_lt_zero k
    simp only [fmtInteger, h, if_true]
    rfl

theorem evalArgs_pairs (scope : List (String × Binding)) :
    ∀ (args : List Expr) (ops : List (Expr × Value)), evalArgs scope args = .ok ops →
      ops.map Prod.fst = args ∧ ∀ ev ∈ ops, eval scope ev.1 = .ok ev.2 := by
  intro args
  induction args with
  | nil =>
    intro ops h
    simp only [evalArgs] at h
    cases h
    exact ⟨rfl, fun ev hev => by cases hev⟩
  | cons e es ih =>
    intro ops h
    cases he : eval scope e with
    | error err => simp [evalArgs, he] at h
    | ok v =>
      cases hes : evalArgs scope es with
      | error err => simp [evalArgs, he, hes] at h
      | ok vs =>
        simp only [evalArgs, he, hes] at h
        cases h
        obtain ⟨h1, h2⟩ := ih vs hes
        refine ⟨by simp [h1], fun ev hev => ?_⟩
        rcases List.mem_cons.mp hev with hd | tl
        · subst hd; exact he
        · exact h2 ev tl

theorem step_println_specLine (m : Machine) (args : List Expr) :
    step m (.println args) =
      match evalArgs m.scope args with
      | .error err => .error err
      | .ok ops =>
        match specLine (ops.map Prod.snd) with
        | .error err => .error err
        | .ok line =>
          .ok { m with proc := { m.proc with stdout := m.proc.stdout ++ line },
                       trace := m.trace ++ [.printed ops line] } := by
  simp only [step, sprintln_eq_specLine]

/-- C5: every output line is formed from the arguments of its Println call in
order, each rendered with the default formatting (a string verbatim, an integer in
decimal), joined with exactly one space between every pair of adjacent arguments
whatever their kinds, and one newline appended. For every operand list the line
Println builds is the line so described; a Println statement evaluates its
arguments in order (a literal to itself, an identifier to its value in scope) and
appends to standard output exactly the described line of those values. In main
the five calls have the arguments of the five Println statements in order, with the
values listed (labels as written, a = 10, name = "Gopher", age = 25,
city = "New York", count = 10, message = "Hello"), each line written is the
described line of those values, what main appends to standard output is these
five lines one after the other, and no line starts with a space, has a space
before its newline, or contains a doubled space. -/
theorem println_line_format :
    (∀ vs : List Value, sprintln vs = specLine vs) ∧
    (∀ s : String, printArg (.str s) = .ok s) ∧
    (∀ n : Int, printArg (.int n) = .ok (toString n)) ∧
    (∀ (m : Machine) (args : List Expr),
      step m (.println args) =
        match evalArgs m.scope args with
        | .error err => .error err
        | .ok ops =>
          match specLine (ops.map Prod.snd) with
          | .error err => .error err
          | .ok line =>
            .ok { m with proc := { m.proc with stdout := m.proc.stdout ++ line },
                         trace := m.trace ++ [.printed ops line] }) ∧
    (∀ (scope : List (String × Binding)) (args : List Expr) (ops : List (Expr × Value)),
      evalArgs scope args = .ok ops →
        ops.map Prod.fst = args ∧ ∀ ev ∈ ops, eval scope ev.1 = .ok ev.2) ∧
    (∀ (scope : List (String × Binding)) (v : Value), eval scope (.lit v) = .ok v) ∧
    (∀ p : Process, ∃ m, run main p = .ok m ∧
      m.proc.stdout = p.stdout ++ String.join ((printCalls m.trace).map Prod.snd) ∧
      printCalls m.trace =
        [ ([(.lit (.str "Value of a:"), .str "Value of a:"), (.ident "a", .int 10),
            (.lit (.str "Name:"), .str "Name:"), (.ident "name", .str "Gopher")],
           "Value of a: 10 Name: Gopher\n"),
          ([(.lit (.str "Hello, Go!"), .str "Hello, Go!")], "Hello, Go!\n"),
          ([(.lit (.str "Value of age:"), .str "Value of age:"), (.ident "age", .int 25),
            (.lit (.str "city:"), .str "city:"), (.ident "city", .str "New York")],
           "Value of age: 25 city: New York\n"),
          ([(.lit (.str "Value of count:"), .str "Value of count:"),
            (.ident "count", .int 10),
            (.lit (.str "count:"), .str "count:"), (.ident "count", .int 10)],
           "Value of count: 10 count: 10\n"),
          ([(.lit (.str "Value of message:"), .str "Value of message:"),
            (.ident "message", .str "Hello"),
            (.lit (.str "city:"), .str "city:"), (.ident "city", .str "New York")],
           "Value of message: Hello city: New York\n") ] ∧
      (∀ c ∈ printCalls m.trace, ∀ ev ∈ c.1, (eval m.scope ev.1).toOption = some ev.2) ∧
      (printCalls m.trace).map (fun c => c.1.map Prod.fst) = printlnArgs main ∧
      (∀ c ∈ printCalls m.trace,
        (specLine (c.1.map Prod.snd)).toOption = some c.2 ∧
        c.2.toList.head? ≠ some ' ' ∧
        c.2.toList.reverse.take 2 ≠ ['\n', ' '] ∧
        c.2.toList.getLast? = some '\n' ∧
        c.2.toList.count '\n' = 1 ∧
        hasDoubleSpace c.2.toList = false)) := by
  refine ⟨sprintln_eq_specLine, fun s => rfl, fun n => ?_, step_println_specLine,
    evalArgs_pairs, fun _ _ => rfl, fun p => ?_⟩
  · simp only [printArg, fmtInteger_eq_toString]
  · obtain ⟨m, hm, hs, ht, hp⟩ := run_of_fresh main p rfl
    refine ⟨m, hm, ?_, ?_, ?_, ?_, ?_⟩
    · rw [hp, ht]; rfl
    · rw [ht]; rfl
    · rw [hs, ht]; decide
    · rw [ht]; rfl
    · rw [ht]; decide

/-! ## Values, order and shape of the declarations -/

/-- C6: each named value keeps its initial literal value for the whole program:
after any number `k` of the statements of main, each of a, name, age, city, count
and message is in scope exactly when its declaration is among those `k`
statements, and then has the literal it was declared with (10, "Gopher", 25,
"New York", 10, "Hello"); and every identifier printed so far was printed with
that literal. -/
theorem values_retain_literals (p : Process) (k : Nat) (hk : k ≤ main.length) :
    ∃ m, run (main.take k) p = .ok m ∧
      valueOf m "a" = (if 1 ≤ k then some (.int 10) else none) ∧
      valueOf m "name" = (if 2 ≤ k then some (.str "Gopher") else none) ∧
      valueOf m "age" = (if 5 ≤ k then some (.int 25) else none) ∧
      valueOf m "city" = (if 6 ≤ k then some (.str "New York") else none) ∧
      valueOf m "count" = (if 7 ≤ k then some (.int 10) else none) ∧
      valueOf m "message" = (if 8 ≤ k then some (.str "Hello") else none) ∧
      (∀ xv ∈ printedIdents m.trace,
        xv ∈ [("a", Value.int 10), ("name", Value.str "Gopher"), ("age", Value.int 25),
              ("city", Value.str "New York"), ("count", Value.int 10),
              ("message", Value.str "Hello")]) := by
  have hlen : main.length = 13 := rfl
  rw [hlen] at hk
  have hok : ∀ j, j ≤ 13 → succeeds (main.take j) = true := by decide
  obtain ⟨m, hm, hs, ht, _⟩ := run_of_fresh (main.take k) p (hok k hk)
  refine ⟨m, hm, ?_⟩
  simp only [valueOf, hs, ht]
  clear hm hs ht hok
  interval_cases k <;> decide

/-- Witness for C6: the state after the first five statements of main, in the
fresh process. -/
theorem values_retain_literals_witness :
    5 ≤ main.length ∧
    ∃ m, run (main.take 5) fresh = .ok m ∧
      valueOf m "a" = (if 1 ≤ 5 then some (.int 10) else none) ∧
      valueOf m "name" = (if 2 ≤ 5 then some (.str "Gopher") else none) ∧
      valueOf m "age" = (if 5 ≤ 5 then some (.int 25) else none) ∧
      valueOf m "city" = (if 6 ≤ 5 then some (.str "New York") else none) ∧
      valueOf m "count" = (if 7 ≤ 5 then some (.int 10) else none) ∧
      valueOf m "message" = (if 8 ≤ 5 then some (.str "Hello") else none) ∧
      (∀ xv ∈ printedIdents m.trace,
        xv ∈ [("a", Value.int 10), ("name", Value.str "Gopher"), ("age", Value.int 25),
              ("city", Value.str "New York"), ("count", Value.int 10),
              ("message", Value.str "Hello")]) :=
  ⟨by decide, values_retain_literals fresh 5 (by decide)⟩

/-- C7 as stated fails: in the run of main the third and fourth statements executed
are Println calls and the fifth is the declaration of age, so output is emitted
before age, city, count, message, Pi and MaxUsers are declared; it is not the case
that every declaration comes before the first output line. -/
theorem main_prints_before_declaring :
    (∃ m, run main fresh = .ok m ∧ declsBeforePrints m.trace = false ∧
      (m.trace.map Event.declares).take 5 = [some "a", some "name", none, none, some "age"] ∧
      (printedLines (m.trace.take 4)) = ["Value of a: 10 Name: Gopher\n", "Hello, Go!\n"]) ∧
    ¬ (∀ p : Process, ∃ m, run main p = .ok m ∧ declsBeforePrints m.trace = true) := by
  refine ⟨⟨outcome main, rfl, rfl, rfl, rfl⟩, fun h => ?_⟩
  obtain ⟨m, hm, hd⟩ := h fresh
  have hrun : run main fresh = .ok (outcome main) := rfl
  rw [hrun] at hm
  cases hm
  revert hd
  decide

/-- C7, amended: main declares a and name, then emits the first two output lines,
then declares age, city, count, message, Pi and MaxUsers, then emits the last
three output lines; every value is declared and initialised before the first
output line that prints it. -/
theorem main_statement_order (p : Process) :
    ∃ m, run main p = .ok m ∧
      m.trace.map Event.declares =
        [some "a", some "name", none, none, some "age", some "city", some "count",
         some "message", some "Pi", some "MaxUsers", none, none, none] ∧
      declaredBeforeUse [] m.trace = true := by
  obtain ⟨m, hm, _, ht, _⟩ := run_of_fresh main p rfl
  refine ⟨m, hm, ?_, ?_⟩
  · rw [ht]; rfl
  · rw [ht]; rfl

/-- C8 as stated fails: main declares four values with the var form, not five, and
their kinds in order are integer, string, integer, string, not integer, string,
string, integer, string. -/
theorem main_var_form_not_five :
    (∃ m, run main fresh = .ok m ∧
      varFormKinds (declarations m.trace) = [.int, .string, .int, .string]) ∧
    ¬ (∀ p : Process, ∃ m, run main p = .ok m ∧
      varFormKinds (declarations m.trace) = [.int, .string, .string, .int, .string]) := by
  refine ⟨⟨outcome main, rfl, rfl⟩, fun h => ?_⟩
  obtain ⟨m, hm, hd⟩ := h fresh
  have hrun : run main fresh = .ok (outcome main) := rfl
  rw [hrun] at hm
  cases hm
  revert hd
  decide

/-- C8, amended: four local values are declared with the var form, in the order an
integer (a), a string (name), another integer (age), each with an explicit type,
and another string (city) with the type inferred; then two values with the
shorthand form (the integer count, then the string message); then two constants
(the floating-point Pi, then the integer MaxUsers). -/
theorem main_declaration_shape (p : Process) :
    ∃ m, run main p = .ok m ∧
      declarations m.trace =
        [(.varTyped, "a", .int), (.varTyped, "name", .string), (.varTyped, "age", .int),
         (.varInferred, "city", .string),
         (.short, "count", .int), (.short, "message", .string),
         (.const, "Pi", .float), (.const, "MaxUsers", .int)] := by
  obtain ⟨m, hm, _, ht, _⟩ := run_of_fresh main p rfl
  exact ⟨m, hm, by rw [ht]; rfl⟩

/-! ## The constants -/

theorem mainWith_succeeds (l : Literals) : succeeds (mainWith l) = true := by
  simp [succeeds, run, mainWith, exec, step, start, eval, evalArgs, declare, sprintln,
    doPrintln, printArg, List.lookup, Value.kind]

theorem outcome_mainWith_stdout (l : Literals) :
    (outcome (mainWith l)).proc.stdout =
      "Value of a: " ++ (fmtInteger l.a ++ (" Name: " ++ (l.name ++
      ("\nHello, Go!\n" ++
      ("Value of age: " ++ (fmtInteger l.age ++ (" city: " ++ (l.city ++ ("\n" ++
      ("Value of count: " ++ (fmtInteger l.count ++ (" count: " ++ (fmtInteger l.count ++
      ("\n" ++
      ("Value of message: " ++ (l.message ++ (" city: " ++ (l.city ++
      "\n")))))))))))))))))) := by
  simp [outcome, run, mainWith, exec, step, start, eval, evalArgs, declare, sprintln,
    doPrintln, printArg, List.lookup, Value.kind, fresh, String.append_assoc]

theorem outcome_mainWith_printCalls (l : Literals) :
    printCalls (outcome (mainWith l)).trace =
      [ ([(.lit (.str "Value of a:"), .str "Value of a:"), (.ident "a", .int l.a),
          (.lit (.str "Name:"), .str "Name:"), (.ident "name", .str l.name)],
         "Value of a: " ++ fmtInteger l.a ++ " Name: " ++ l.name ++ "\n"),
        ([(.lit (.str "Hello, Go!"), .str "Hello, Go!")], "Hello, Go!\n"),
        ([(.lit (.str "Value of age:"), .str "Value of age:"), (.ident "age", .int l.age),
          (.lit (.str "city:"), .str "city:"), (.ident "city", .str l.city)],
         "Value of age: " ++ fmtInteger l.age ++ " city: " ++ l.city ++ "\n"),
        ([(.lit (.str "Value of count:"), .str "Value of count:"),
          (.ident "count", .int l.count),
          (.lit (.str "count:"), .str "count:"), (.ident "count", .int l.count)],
         "Value of count: " ++ fmtInteger l.count ++ " count: " ++ fmtInteger l.count
           ++ "\n"),
        ([(.lit (.str "Value of message:"), .str "Value of message:"),
          (.ident "message", .str l.message),
          (.lit (.str "city:"), .str "city:"), (.ident "city", .str l.city)],
         "Value of message: " ++ l.message ++ " city: " ++ l.city ++ "\n") ] := by
  simp [outcome, run, mainWith, exec, step, start, eval, evalArgs, declare, sprintln,
    doPrintln, printArg, List.lookup, Value.kind, fresh, printCalls, String.append_assoc]

/-- C9: the constants Pi and MaxUsers have no influence on the output. With the
eight declared values as parameters of main (the source values give main itself),
two runs whose values agree on a, name, age, city, count and message both succeed
and leave the same standard output, written by the same Println calls with the
same operands; neither Pi nor MaxUsers is read anywhere in main; and the second
line written is "Hello, Go!" whatever the eight values are. -/
theorem constants_do_not_influence_output (l l' : Literals) (p : Process)
    (ha : l.a = l'.a) (hname : l.name = l'.name) (hage : l.age = l'.age)
    (hcity : l.city = l'.city) (hcount : l.count = l'.count)
    (hmessage : l.message = l'.message) :
    mainWith literals = main ∧
    "Pi" ∉ usedIdents (mainWith l) ∧ "MaxUsers" ∉ usedIdents (mainWith l) ∧
    ∃ m m', run (mainWith l) p = .ok m ∧ run (mainWith l') p = .ok m' ∧
      m.proc = m'.proc ∧ printCalls m.trace = printCalls m'.trace ∧
      (printCalls m.trace)[1]? =
        some ([(.lit (.str "Hello, Go!"), .str "Hello, Go!")], "Hello, Go!\n") := by
  obtain ⟨m, hm, _, ht, hp⟩ := run_of_fresh (mainWith l) p (mainWith_succeeds l)
  obtain ⟨m', hm', _, ht', hp'⟩ := run_of_fresh (mainWith l') p (mainWith_succeeds l')
  refine ⟨rfl, ?_, ?_, m, m', hm, hm', ?_, ?_, ?_⟩
  · simp [mainWith, usedIdents, identsOf]
  · simp [mainWith, usedIdents, identsOf]
  · rw [hp, hp', outcome_mainWith_stdout, outcome_mainWith_stdout, ha, hage, hcount,
      hname, hcity, hmessage]
  · rw [ht, ht', outcome_mainWith_printCalls, outcome_mainWith_printCalls, ha, hage, hcount,
      hname, hcity, hmessage]
  · rw [ht, outcome_mainWith_printCalls]; rfl

/-- Witness for C9: the source values against the same values with Pi and MaxUsers
changed, in the fresh process. -/
theorem constants_do_not_influence_output_witness :
    mainWith literals = main ∧
    "Pi" ∉ usedIdents (mainWith literals) ∧ "MaxUsers" ∉ usedIdents (mainWith literals) ∧
    ∃ m m', run (mainWith literals) fresh = .ok m ∧
      run (mainWith { literals with Pi := ⟨271828, 5⟩, MaxUsers := 7 }) fresh = .ok m' ∧
      m.proc = m'.proc ∧ printCalls m.trace = printCalls m'.trace ∧
      (printCalls m.trace)[1]? =
        some ([(.lit (.str "Hello, Go!"), .str "Hello, Go!")], "Hello, Go!\n") :=
  constants_do_not_influence_output literals
    { literals with Pi := ⟨271828, 5⟩, MaxUsers := 7 } fresh rfl rfl rfl rfl rfl rfl

end LearnGo
